import Mathlib

/-!
Shallow embedding of the pgp-toolkit repository's validation layer,
cryptographic wrapper functions (src/utils/pgp.ts, src/utils/validation.ts)
and orchestration hook state machines (src/hooks/useDecrypt.ts,
src/hooks/useEncrypt.ts), together with proofs of the specified properties.

The external OpenPGP library is an opaque collaborator of the repository;
it is modelled as a structure of operations that may throw (return
`Except Thrown _`), and the wrapper code is translated faithfully from the
TypeScript source on top of that model.
-/

/-- A thrown JavaScript value: either an `Error` carrying a message
(`isError = true`) or a non-`Error` value. -/
structure Thrown where
  isError : Bool
  message : String
deriving DecidableEq

/-- Models the TypeScript idiom
`error instanceof Error ? error.message : fallback`. -/
def Thrown.messageOr (e : Thrown) (fallback : String) : String :=
  if e.isError then e.message else fallback

/-- Models JavaScript falsiness of an optional string argument:
`!x` is true for `undefined` and for the empty string. -/
def jsFalsyOpt : Option String → Bool
  | none => true
  | some s => s.isEmpty

/-- Models the JavaScript idiom `x[0] || fallback` on a string list lookup:
`undefined` and the empty string both fall through to the fallback. -/
def jsStrOr (s : Option String) (fallback : String) : String :=
  match s with
  | some v => if v.isEmpty then fallback else v
  | none => fallback

/-- Whether `pat` occurs at the head of `l` (character-list version of a
string startsWith test, kept structural so the kernel can evaluate it). -/
def charsLeadWith : List Char → List Char → Bool
  | [], _ => true
  | _ :: _, [] => false
  | p :: ps, c :: cs => p == c && charsLeadWith ps cs

/-- Whether `pat` occurs anywhere in `l`. -/
def charsContain (pat : List Char) : List Char → Bool
  | [] => charsLeadWith pat []
  | c :: cs => charsLeadWith pat (c :: cs) || charsContain pat cs

/-- Models JavaScript `s.includes(pat)` (substring containment). -/
def jsIncludes (s pat : String) : Bool :=
  charsContain pat.data s.data

/-! ## src/utils/validation.ts -/

/-- Result record of the validation helpers in src/utils/validation.ts. -/
structure ValidationResult where
  valid : Bool
  error : Option String := none
deriving DecidableEq

/-- `const MAX_MESSAGE_SIZE = 1024 * 1024` (1 MiB). -/
def MAX_MESSAGE_SIZE : Nat := 1024 * 1024

/-- Models `new Blob([message]).size`: the UTF-8 byte length of the string. -/
def blobSize (message : String) : Nat :=
  message.utf8ByteSize

/-- Models `(size / 1024 / 1024).toFixed(2)`.  The double `size / 2^20` is
exact for every realistic size, and `toFixed(2)` picks the integer `n`
nearest to `size * 100 / 2^20`, ties towards the larger value. -/
def sizeInMBFixed2 (size : Nat) : String :=
  let n := (size * 100 * 2 + 1048576) / 2097152
  toString (n / 100) ++ "." ++
    (if n % 100 < 10 then "0" ++ toString (n % 100) else toString (n % 100))

/-- Translation of `validateMessageSize` from src/utils/validation.ts. -/
def validateMessageSize (message : String) : ValidationResult :=
  let size := blobSize message
  if size > MAX_MESSAGE_SIZE then
    { valid := false
      error := some ("Message exceeds maximum size (1MB). Current size: " ++
        sizeInMBFixed2 size ++ "MB") }
  else
    { valid := true }

/-! ## formatFingerprint (src/utils/pgp.ts)

`fingerprint.match(/.{1,4}/g)?.join(' ') ?? fingerprint`.  The JavaScript
regex `.` matches any character except the line terminators `\n`, `\r`,
U+2028 and U+2029; the global match greedily collects runs of 1 to 4 such
characters, skipping over characters that do not match. -/

/-- Whether a character is matched by the JavaScript regex `.`
(anything except a line terminator). -/
def jsDot (c : Char) : Bool :=
  c != '\n' && c != '\r' && c != '\u2028' && c != '\u2029'

/-- Greedily take up to `n` further regex-`.` characters. -/
def takeDots : Nat → List Char → List Char
  | 0, _ => []
  | _ + 1, [] => []
  | n + 1, c :: rest => if jsDot c then c :: takeDots n rest else []

/-- Fuel-indexed scan implementing the global match of `/.{1,4}/g`:
at each position either a greedy chunk of 1–4 dot characters is emitted
and the scan resumes after it, or the non-matching character is skipped.
Fuel at least the length of the list is always sufficient. -/
def matchChunksAux : Nat → List Char → List (List Char)
  | 0, _ => []
  | _ + 1, [] => []
  | fuel + 1, c :: rest =>
    if jsDot c then
      let chunk := c :: takeDots 3 rest
      chunk :: matchChunksAux fuel (rest.drop (chunk.length - 1))
    else
      matchChunksAux fuel rest

/-- All matches of `/.{1,4}/g` over the characters of a string. -/
def matchChunks (l : List Char) : List (List Char) :=
  matchChunksAux l.length l

/-- Translation of `formatFingerprint` from src/utils/pgp.ts:
`fingerprint.match(/.{1,4}/g)?.join(' ') ?? fingerprint` (a null match
result, i.e. no matches at all, returns the input unchanged). -/
def formatFingerprint (fingerprint : String) : String :=
  let parts := (matchChunks fingerprint.data).map (fun l => String.mk l)
  if parts.isEmpty then fingerprint else String.intercalate " " parts

/-- Modelled from the spec's words "grouping into 4-character blocks":
cut the character list into consecutive blocks of exactly 4 (the last
block may be shorter). -/
def blocks4Aux : Nat → List Char → List (List Char)
  | 0, _ => []
  | _ + 1, [] => []
  | fuel + 1, c :: rest => (c :: rest).take 4 :: blocks4Aux fuel ((c :: rest).drop 4)

/-- Modelled from the spec's words: the fingerprint's characters grouped
into blocks of 4 separated by single spaces. -/
def specGroup4 (s : String) : String :=
  String.intercalate " " ((blocks4Aux s.data.length s.data).map (fun l => String.mk l))

/-! ## src/utils/pgp.ts — data model and the external OpenPGP library -/

/-- `KeyInfo` from src/utils/pgp.ts (dates as integer timestamps). -/
structure KeyInfo where
  fingerprint : String
  userIds : List String
  algorithm : String
  created : Int
  expirationDate : Option Int
  isExpired : Bool
  isEncrypted : Option Bool := none
deriving DecidableEq

/-- `EncryptResult` from src/utils/pgp.ts. -/
structure EncryptResult where
  success : Bool
  data : Option String := none
  error : Option String := none
deriving DecidableEq

/-- `DecryptResult` from src/utils/pgp.ts. -/
structure DecryptResult where
  success : Bool
  data : Option String := none
  error : Option String := none
deriving DecidableEq

/-- `SignResult` from src/utils/pgp.ts. -/
structure SignResult where
  success : Bool
  data : Option String := none
  error : Option String := none
deriving DecidableEq

/-- `VerifyResult` from src/utils/pgp.ts. -/
structure VerifyResult where
  success : Bool
  valid : Option Bool := none
  signedBy : Option String := none
  signedAt : Option Int := none
  message : Option String := none
  error : Option String := none
deriving DecidableEq

/-- The algorithm descriptor returned by the library's `getAlgorithmInfo`:
`bits` and `curve` are present only for some algorithms (the TypeScript
code tests `'bits' in algorithmInfo` / `'curve' in algorithmInfo`). -/
structure AlgorithmInfo where
  algorithm : String
  bits : Option Nat
  curve : Option String

/-- One entry of `verificationResult.signatures`: `verified` is the
promise that resolves iff the signature checks out, and `createdDate`
models `await signature` followed by `signaturePacket?.packets?.[0]?.created`
(`some d` when that value is a `Date`). -/
structure SignatureEntry where
  verified : Except Thrown Unit
  createdDate : Except Thrown (Option Int)

/-- The result object of the library's `verify` call: the payload text
(when it is a string) and the signature list. -/
structure VerificationResult where
  dataStr : Option String
  signatures : List SignatureEntry

/-- A subkey as exposed by the library: accessors used by `inspectKey`. -/
structure SubkeyRec where
  keyIdHex : String
  algorithmInfo : AlgorithmInfo
  created : Int
  expirationTime : Except Thrown (Option Int)

/-- Model of the external OpenPGP library's API surface as used by
src/utils/pgp.ts.  `Key` covers both public and private key objects
(the library's `PrivateKey` extends `Key`); every call that the wrapper
awaits inside a `try` block may throw, so it returns `Except Thrown _`.
`getExpirationTime` yields `some d` when the resolved value is a `Date`
and `none` for `Infinity`/`null` (the code tests `instanceof Date`). -/
structure OpenPGP (Key Msg ClearMsg : Type) where
  readKey : String → Except Thrown Key
  readPrivateKey : String → Except Thrown Key
  isDecrypted : Key → Bool
  decryptKey : Key → String → Except Thrown Key
  createMessage : String → Except Thrown Msg
  readMessage : String → Except Thrown Msg
  createCleartextMessage : String → Except Thrown ClearMsg
  readCleartextMessage : String → Except Thrown ClearMsg
  encrypt : Msg → List Key → Except Thrown String
  decrypt : Msg → Key → Except Thrown String
  signDetached : Msg → Key → Except Thrown String
  signCleartext : ClearMsg → Key → Except Thrown String
  verify : Msg ⊕ ClearMsg → Key → Except Thrown VerificationResult
  getFingerprint : Key → String
  getUserIDs : Key → List String
  getAlgorithmInfo : Key → AlgorithmInfo
  getCreationTime : Key → Int
  getExpirationTime : Key → Except Thrown (Option Int)
  getKeyIDHex : Key → String
  getSubkeys : Key → List SubkeyRec
  getSigningKey : Key → Except Thrown Unit
  getEncryptionKey : Key → Except Thrown Unit

/-! ## src/utils/pgp.ts — wrapper functions -/

/-- Translation of `parsePublicKey` from src/utils/pgp.ts (`now` stands
for `new Date()` at the moment of the call). -/
def parsePublicKey {K M C : Type} (L : OpenPGP K M C) (now : Int)
    (armoredKey : String) : Option KeyInfo :=
  match L.readKey armoredKey with
  | .error _ => none
  | .ok key =>
    match L.getExpirationTime key with
    | .error _ => none
    | .ok expirationDate =>
      some {
        fingerprint := (L.getFingerprint key).toUpper
        userIds := L.getUserIDs key
        algorithm := (L.getAlgorithmInfo key).algorithm
        created := L.getCreationTime key
        expirationDate := expirationDate
        isExpired := match expirationDate with
          | some d => decide (d < now)
          | none => false }

/-- Translation of `parsePrivateKey` from src/utils/pgp.ts. -/
def parsePrivateKey {K M C : Type} (L : OpenPGP K M C) (now : Int)
    (armoredKey : String) : Option KeyInfo :=
  match L.readPrivateKey armoredKey with
  | .error _ => none
  | .ok key =>
    match L.getExpirationTime key with
    | .error _ => none
    | .ok expirationDate =>
      some {
        fingerprint := (L.getFingerprint key).toUpper
        userIds := L.getUserIDs key
        algorithm := (L.getAlgorithmInfo key).algorithm
        created := L.getCreationTime key
        expirationDate := expirationDate
        isExpired := match expirationDate with
          | some d => decide (d < now)
          | none => false
        isEncrypted := some (!(L.isDecrypted key)) }

/-- Models `Promise.all(keyArray.map(key => openpgp.readKey({ armoredKey: key })))`:
all keys are read, the first rejection rejects the whole batch. -/
def readAllKeys {K M C : Type} (L : OpenPGP K M C) :
    List String → Except Thrown (List K)
  | [] => .ok []
  | s :: rest => do
    let k ← L.readKey s
    let ks ← readAllKeys L rest
    .ok (k :: ks)

/-- The body of the `try` block of `encryptMessage` after the
empty-array check. -/
def encryptCore {K M C : Type} (L : OpenPGP K M C) (plaintext : String)
    (keyArray : List String) : Except Thrown String := do
  let publicKeys ← readAllKeys L keyArray
  let message ← L.createMessage plaintext
  L.encrypt message publicKeys

/-- The `Array.isArray` normalization at the top of `encryptMessage`:
a single string is wrapped into a one-element array. -/
def toKeyArray : String ⊕ List String → List String
  | .inl single => [single]
  | .inr arr => arr

/-- Translation of `encryptMessage` from src/utils/pgp.ts.  The
`armoredPublicKeys` argument is `string | string[]`. -/
def encryptMessage {K M C : Type} (L : OpenPGP K M C) (plaintext : String)
    (armoredPublicKeys : String ⊕ List String) : EncryptResult :=
  let keyArray := toKeyArray armoredPublicKeys
  if keyArray.length == 0 then
    { success := false, error := some "At least one public key is required" }
  else
    match encryptCore L plaintext keyArray with
    | .ok encrypted => { success := true, data := some encrypted }
    | .error e => { success := false, error := some (e.messageOr "Encryption failed") }

/-- The fixed wrong-key error string of `decryptMessage`. -/
def wrongKeyError : String :=
  "Could not decrypt this message. Make sure you're using the correct private key."

/-- The fixed missing-passphrase error string of `decryptMessage` and
`signMessage`. -/
def passphraseNeededError : String :=
  "This private key is protected by a passphrase. Please enter your passphrase."

/-- The fixed incorrect-passphrase error string of `decryptMessage` and
`signMessage`. -/
def incorrectPassphraseError : String :=
  "Incorrect passphrase. Please try again."

/-- The `catch` block of `decryptMessage`: both branches of the
session-key test return the same fixed wrong-key message. -/
def decryptCatch (e : Thrown) : DecryptResult :=
  let errorMessage := e.messageOr "Decryption failed"
  if jsIncludes errorMessage "Session key decryption failed" then
    { success := false, error := some wrongKeyError }
  else
    { success := false, error := some wrongKeyError }

/-- The read-message-and-decrypt tail of the `try` block of
`decryptMessage`. -/
def decryptCore {K M C : Type} (L : OpenPGP K M C) (encryptedMessage : String)
    (privateKey : K) : Except Thrown String := do
  let message ← L.readMessage encryptedMessage
  L.decrypt message privateKey

/-- Translation of `decryptMessage` from src/utils/pgp.ts. -/
def decryptMessage {K M C : Type} (L : OpenPGP K M C)
    (encryptedMessage armoredPrivateKey : String)
    (passphrase : Option String) : DecryptResult :=
  match L.readPrivateKey armoredPrivateKey with
  | .error e => decryptCatch e
  | .ok privateKey0 =>
    if L.isDecrypted privateKey0 then
      match decryptCore L encryptedMessage privateKey0 with
      | .ok decrypted => { success := true, data := some decrypted }
      | .error e => decryptCatch e
    else if jsFalsyOpt passphrase then
      { success := false, error := some passphraseNeededError }
    else
      match L.decryptKey privateKey0 (passphrase.getD "") with
      | .error _ => { success := false, error := some incorrectPassphraseError }
      | .ok privateKey =>
        match decryptCore L encryptedMessage privateKey with
        | .ok decrypted => { success := true, data := some decrypted }
        | .error e => decryptCatch e

/-- The signing tail of the `try` block of `signMessage`: detached
signature or clear-signed message, each followed by the shared `catch`. -/
def signWith {K M C : Type} (L : OpenPGP K M C) (message : String)
    (detached : Bool) (privateKey : K) : SignResult :=
  if detached then
    match (do
        let messageObj ← L.createMessage message
        L.signDetached messageObj privateKey : Except Thrown String) with
    | .ok signature => { success := true, data := some signature }
    | .error e => { success := false, error := some (e.messageOr "Signing failed") }
  else
    match (do
        let cleartextMessage ← L.createCleartextMessage message
        L.signCleartext cleartextMessage privateKey : Except Thrown String) with
    | .ok signedMessage => { success := true, data := some signedMessage }
    | .error e => { success := false, error := some (e.messageOr "Signing failed") }

/-- Translation of `signMessage` from src/utils/pgp.ts. -/
def signMessage {K M C : Type} (L : OpenPGP K M C)
    (message armoredPrivateKey : String) (passphrase : Option String)
    (detached : Bool) : SignResult :=
  match L.readPrivateKey armoredPrivateKey with
  | .error e => { success := false, error := some (e.messageOr "Signing failed") }
  | .ok privateKey0 =>
    if L.isDecrypted privateKey0 then
      signWith L message detached privateKey0
    else if jsFalsyOpt passphrase then
      { success := false, error := some passphraseNeededError }
    else
      match L.decryptKey privateKey0 (passphrase.getD "") with
      | .error _ => { success := false, error := some incorrectPassphraseError }
      | .ok privateKey => signWith L message detached privateKey

/-- The fixed tampered-signature message of `verifySignature`. -/
def tamperedError : String :=
  "Signature verification failed. The message may have been tampered with or signed by a different key."

/-- Models the TypeError thrown by destructuring
`verificationResult.signatures[0]` when the signature list is empty. -/
def destructureThrown : Thrown :=
  { isError := true
    message := "Cannot destructure property 'verified' of 'verificationResult.signatures[0]' as it is undefined." }

/-- Translation of `verifySignature` from src/utils/pgp.ts. -/
def verifySignature {K M C : Type} (L : OpenPGP K M C)
    (signedMessage armoredPublicKey : String) : VerifyResult :=
  match (do
      let publicKey ← L.readKey armoredPublicKey
      let message ← (match L.readCleartextMessage signedMessage with
        | .ok cleartext => Except.ok (Sum.inr cleartext)
        | .error _ => (L.readMessage signedMessage).map Sum.inl)
      let verificationResult ← L.verify message publicKey
      match verificationResult.signatures with
      | [] => Except.error destructureThrown
      | entry :: _ =>
        match entry.verified, entry.createdDate with
        | .ok _, .ok signedAt =>
          Except.ok { success := true
                      valid := some true
                      signedBy := some (jsStrOr (L.getUserIDs publicKey).head? "Unknown")
                      signedAt := signedAt
                      message := verificationResult.dataStr : VerifyResult }
        | _, _ =>
          Except.ok { success := true
                      valid := some false
                      error := some tamperedError : VerifyResult }
      : Except Thrown VerifyResult) with
  | .ok result => result
  | .error e => { success := false, error := some (e.messageOr "Could not verify the signature.") }

/-- `SubkeyInfo` from src/utils/pgp.ts. -/
structure SubkeyInfo where
  keyId : String
  algorithm : String
  created : Int
  expirationDate : Option Int
  capabilities : List String
deriving DecidableEq

/-- The primary-key capability record of `DetailedKeyInfo`. -/
structure KeyCapabilities where
  certify : Bool
  sign : Bool
  encrypt : Bool
  authenticate : Bool
deriving DecidableEq

/-- `DetailedKeyInfo` from src/utils/pgp.ts. -/
structure DetailedKeyInfo where
  type : String
  fingerprint : String
  keyId : String
  algorithm : String
  bitSize : Option Nat
  curve : Option String
  created : Int
  expirationDate : Option Int
  isExpired : Bool
  userIds : List String
  subkeys : List SubkeyInfo
  capabilities : KeyCapabilities
  isEncrypted : Option Bool

/-- The algorithm-based subkey capability heuristic inside `inspectKey`. -/
def subkeyCaps (algorithm : String) : List String :=
  let algo := algorithm.toLower
  let caps : List String :=
    (if jsIncludes algo "ecdh" || jsIncludes algo "elgamal" then ["encrypt"] else []) ++
    (if jsIncludes algo "eddsa" || jsIncludes algo "ecdsa" || jsIncludes algo "dsa"
      then ["sign"] else []) ++
    (if jsIncludes algo "rsa" then ["encrypt", "sign"] else [])
  if caps.isEmpty then ["encrypt"] else caps

/-- The subkey loop of `inspectKey`: each subkey's expiration time is
awaited in turn, the first rejection aborting the whole call. -/
def inspectSubkeys : List SubkeyRec → Except Thrown (List SubkeyInfo)
  | [] => .ok []
  | subkey :: rest => do
    let subkeyExpDate ← subkey.expirationTime
    let tail ← inspectSubkeys rest
    .ok ({ keyId := subkey.keyIdHex.toUpper
           algorithm := subkey.algorithmInfo.algorithm
           created := subkey.created
           expirationDate := subkeyExpDate
           capabilities := subkeyCaps subkey.algorithmInfo.algorithm } :: tail)

/-- Translation of `inspectKey` from src/utils/pgp.ts. -/
def inspectKey {K M C : Type} (L : OpenPGP K M C) (now : Int)
    (armoredKey : String) : Option DetailedKeyInfo :=
  let isPrivate := jsIncludes armoredKey "PRIVATE KEY BLOCK"
  match (do
      let key ← if isPrivate then L.readPrivateKey armoredKey else L.readKey armoredKey
      let expirationDate ← L.getExpirationTime key
      let subkeys ← inspectSubkeys (L.getSubkeys key)
      let algorithmInfo := L.getAlgorithmInfo key
      Except.ok { type := if isPrivate then "private" else "public"
                  fingerprint := (L.getFingerprint key).toUpper
                  keyId := (L.getKeyIDHex key).toUpper
                  algorithm := algorithmInfo.algorithm
                  bitSize := algorithmInfo.bits
                  curve := algorithmInfo.curve
                  created := L.getCreationTime key
                  expirationDate := expirationDate
                  isExpired := match expirationDate with
                    | some d => decide (d < now)
                    | none => false
                  userIds := L.getUserIDs key
                  subkeys := subkeys
                  capabilities := {
                    certify := true
                    sign := match L.getSigningKey key with
                      | .ok _ => true
                      | .error _ => false
                    encrypt := match L.getEncryptionKey key with
                      | .ok _ => true
                      | .error _ => false
                    authenticate := false }
                  isEncrypted := if isPrivate then some (!(L.isDecrypted key)) else none
                  : DetailedKeyInfo }
      : Except Thrown DetailedKeyInfo) with
  | .ok info => some info
  | .error _ => none

/-! ## src/hooks/useDecrypt.ts -/

/-- The state record of the `useDecrypt` hook. -/
structure UseDecryptState where
  privateKey : String
  passphrase : String
  encryptedMessage : String
  decryptedOutput : String
  keyInfo : Option KeyInfo
  error : Option String
  isLoading : Bool
  needsPassphrase : Bool
deriving DecidableEq

/-- The initial state passed to `useState` in `useDecrypt`. -/
def initialDecryptState : UseDecryptState :=
  { privateKey := ""
    passphrase := ""
    encryptedMessage := ""
    decryptedOutput := ""
    keyInfo := none
    error := none
    isLoading := false
    needsPassphrase := false }

/-- Translation of `clearAll` from src/hooks/useDecrypt.ts: the state is
replaced wholesale by a fresh record, independent of the previous state. -/
def decryptClearAll (_prev : UseDecryptState) : UseDecryptState :=
  { privateKey := ""
    passphrase := ""
    encryptedMessage := ""
    decryptedOutput := ""
    keyInfo := none
    error := none
    isLoading := false
    needsPassphrase := false }

/-! ## src/hooks/useEncrypt.ts -/

/-- The `Recipient` record of the `useEncrypt` hook. -/
structure Recipient where
  id : String
  key : String
  keyInfo : Option KeyInfo
  error : Option String
deriving DecidableEq

/-- `createRecipient` from src/hooks/useEncrypt.ts; the `Math.random`
identifier is passed in explicitly. -/
def createRecipient (id : String) : Recipient :=
  { id := id, key := "", keyInfo := none, error := none }

/-- The state record of the `useEncrypt` hook. -/
structure UseEncryptState where
  recipients : List Recipient
  message : String
  encryptedOutput : String
  error : Option String
  isLoading : Bool
  encryptToSelf : Bool
  selfKey : String
  selfKeyInfo : Option KeyInfo
  selfKeyError : Option String
deriving DecidableEq

/-- The initial state passed to `useState` in `useEncrypt`, with the
freshly generated recipient identifier made explicit. -/
def initialEncryptState (freshId : String) : UseEncryptState :=
  { recipients := [createRecipient freshId]
    message := ""
    encryptedOutput := ""
    error := none
    isLoading := false
    encryptToSelf := false
    selfKey := ""
    selfKeyInfo := none
    selfKeyError := none }

/-- Every `setState` transition performed by the `useEncrypt` hook, one
constructor per state update in the source (the updates inside the async
`validateRecipient`, `validateSelfKey` and `encrypt` callbacks included);
`freshId` arguments stand for the `Math.random` identifier generated by
the corresponding `createRecipient()` call. -/
inductive EncryptAction where
  | setPublicKey (freshId key : String)
  | addRecipient (freshId : String)
  | removeRecipient (id : String)
  | updateRecipient (id key : String)
  | validateRecipientFormatFail (id : String) (err : Option String)
  | validateRecipientParseFail (id : String)
  | validateRecipientOk (id : String) (info : KeyInfo)
  | setEncryptToSelf (enabled : Bool)
  | setSelfKey (key : String)
  | validateSelfKeyMissing
  | validateSelfKeyFormatFail (err : Option String)
  | validateSelfKeyParseFail
  | validateSelfKeyOk (info : KeyInfo)
  | setMessage (message : String)
  | encryptStart
  | encryptNoRecipients
  | encryptInvalidKey (id : String) (err : Option String)
  | encryptSelfKeyMissing
  | encryptSelfKeyFormatFail (err : Option String)
  | encryptMessageInvalid (err : Option String)
  | encryptSuccess (output : String)
  | encryptFailure (err : String)
  | clearAll (freshId : String)

/-- The `useEncrypt` state transitions, translated update by update from
src/hooks/useEncrypt.ts. -/
def encryptStep : EncryptAction → UseEncryptState → UseEncryptState
  | .setPublicKey freshId key, prev =>
    let newRecipients := prev.recipients
    let newRecipients := if newRecipients.length == 0
      then newRecipients ++ [createRecipient freshId] else newRecipients
    let newRecipients := match newRecipients with
      | [] => []
      | r :: rest => { r with key := key, keyInfo := none, error := none } :: rest
    { prev with recipients := newRecipients, error := none }
  | .addRecipient freshId, prev =>
    if 10 ≤ prev.recipients.length then prev
    else { prev with recipients := prev.recipients ++ [createRecipient freshId]
                     error := none }
  | .removeRecipient id, prev =>
    if prev.recipients.length ≤ 1 then prev
    else { prev with recipients := prev.recipients.filter (fun r => r.id != id)
                     error := none }
  | .updateRecipient id key, prev =>
    { prev with
        recipients := prev.recipients.map (fun r =>
          if r.id == id then { r with key := key, keyInfo := none, error := none } else r)
        error := none }
  | .validateRecipientFormatFail id err, prev =>
    { prev with recipients := prev.recipients.map (fun r =>
        if r.id == id then { r with error := err, keyInfo := none } else r) }
  | .validateRecipientParseFail id, prev =>
    { prev with recipients := prev.recipients.map (fun r =>
        if r.id == id
        then { r with error := some "This doesn't appear to be a valid PGP public key."
                      keyInfo := none }
        else r) }
  | .validateRecipientOk id info, prev =>
    { prev with recipients := prev.recipients.map (fun r =>
        if r.id == id then { r with keyInfo := some info, error := none } else r) }
  | .setEncryptToSelf enabled, prev =>
    { prev with encryptToSelf := enabled, selfKeyError := none }
  | .setSelfKey key, prev =>
    { prev with selfKey := key, selfKeyInfo := none, selfKeyError := none }
  | .validateSelfKeyMissing, prev =>
    { prev with
        selfKeyError := some "Your public key is required when \"encrypt to self\" is enabled"
        selfKeyInfo := none }
  | .validateSelfKeyFormatFail err, prev =>
    { prev with selfKeyError := err, selfKeyInfo := none }
  | .validateSelfKeyParseFail, prev =>
    { prev with selfKeyError := some "This doesn't appear to be a valid PGP public key."
                selfKeyInfo := none }
  | .validateSelfKeyOk info, prev =>
    { prev with selfKeyInfo := some info, selfKeyError := none }
  | .setMessage message, prev =>
    { prev with message := message, error := none }
  | .encryptStart, prev =>
    { prev with isLoading := true, error := none, encryptedOutput := "" }
  | .encryptNoRecipients, prev =>
    { prev with isLoading := false
                error := some "At least one public key is required" }
  | .encryptInvalidKey id err, prev =>
    { prev with isLoading := false
                recipients := prev.recipients.map (fun r =>
                  if r.id == id then { r with error := err } else r)
                error := some "One or more keys are invalid" }
  | .encryptSelfKeyMissing, prev =>
    { prev with isLoading := false
                selfKeyError := some "Your public key is required when \"encrypt to self\" is enabled" }
  | .encryptSelfKeyFormatFail err, prev =>
    { prev with isLoading := false, selfKeyError := err }
  | .encryptMessageInvalid err, prev =>
    { prev with isLoading := false, error := err }
  | .encryptSuccess output, prev =>
    { prev with isLoading := false, encryptedOutput := output, error := none }
  | .encryptFailure err, prev =>
    { prev with isLoading := false, error := some err }
  | .clearAll freshId, _prev =>
    { recipients := [createRecipient freshId]
      message := ""
      encryptedOutput := ""
      error := none
      isLoading := false
      encryptToSelf := false
      selfKey := ""
      selfKeyInfo := none
      selfKeyError := none }

/-- The recipient identifiers of a `useEncrypt` state. -/
def recipientIds (s : UseEncryptState) : List String :=
  s.recipients.map Recipient.id

/-- The recipients-list invariant of the `useEncrypt` hook: between 1 and
10 entries, with pairwise distinct identifiers. -/
def RecListInv (l : List Recipient) : Prop :=
  1 ≤ l.length ∧ l.length ≤ 10 ∧ (l.map Recipient.id).Nodup

instance (l : List Recipient) : Decidable (RecListInv l) := by
  unfold RecListInv; infer_instance

/-- The invariant read off a `useEncrypt` state. -/
def RecipientsInv (s : UseEncryptState) : Prop :=
  RecListInv s.recipients

instance (s : UseEncryptState) : Decidable (RecipientsInv s) := by
  unfold RecipientsInv; infer_instance

/-- Freshness of generated identifiers: an action that calls
`createRecipient()` on a non-empty list must draw an identifier not
already present (`Math.random` identifiers assumed distinct). -/
def FreshFor (a : EncryptAction) (s : UseEncryptState) : Prop :=
  match a with
  | .addRecipient freshId => freshId ∉ recipientIds s
  | _ => True

instance (a : EncryptAction) (s : UseEncryptState) : Decidable (FreshFor a s) := by
  unfold FreshFor; cases a <;> infer_instance

/-! ## Concrete library instantiations used to witness the theorems -/

deriving instance DecidableEq for Except

deriving instance DecidableEq for AlgorithmInfo

deriving instance DecidableEq for SignatureEntry

deriving instance DecidableEq for VerificationResult

/-- A small concrete model of the OpenPGP library satisfying its
documented contract: key objects are booleans recording whether the
private key material is unlocked, message objects are character lists,
"encryption" tags the text with a leading marker character and
clear-signing prepends an `S` that verification checks for. -/
def toyLib : OpenPGP Bool (List Char) (List Char) :=
  { readKey := fun s =>
      if s == "PUB" then .ok true
      else .error { isError := true, message := "Misformed armored text" }
    readPrivateKey := fun s =>
      if s == "PRIV" then .ok true
      else if s == "EPRIV" then .ok false
      else .error { isError := true, message := "Misformed armored text" }
    isDecrypted := fun k => k
    decryptKey := fun _ passphrase =>
      if passphrase == "pw" then .ok true
      else .error { isError := true, message := "Incorrect key passphrase" }
    createMessage := fun t => .ok t.data
    readMessage := fun s => .ok (s.data.drop 1)
    createCleartextMessage := fun t => .ok t.data
    readCleartextMessage := fun s => .ok s.data
    encrypt := fun m _ => .ok (String.mk ('C' :: m))
    decrypt := fun m _ => .ok (String.mk m)
    signDetached := fun m _ => .ok (String.mk ('D' :: m))
    signCleartext := fun c _ => .ok (String.mk ('S' :: c))
    verify := fun v _ =>
      match v with
      | .inl m => .ok { dataStr := some (String.mk m)
                        signatures := [{ verified := .error { isError := true, message := "Signature mismatch" }
                                         createdDate := .ok none }] }
      | .inr c => .ok { dataStr := some (String.mk c)
                        signatures := [{ verified := if c.head? == some 'S' then .ok ()
                                           else .error { isError := true, message := "Signature mismatch" }
                                         createdDate := .ok none }] }
    getFingerprint := fun _ => "0123abcd"
    getUserIDs := fun _ => ["Alice <alice@example.com>"]
    getAlgorithmInfo := fun _ => { algorithm := "eddsa", bits := none, curve := some "ed25519" }
    getCreationTime := fun _ => 0
    getExpirationTime := fun _ => .ok none
    getKeyIDHex := fun _ => "0a1b2c3d"
    getSubkeys := fun _ => []
    getSigningKey := fun _ => .ok ()
    getEncryptionKey := fun _ => .ok () }

/-- A concrete model of the library in which every parsing call throws an
`Error` whose message carries distinctive internal detail. -/
def leakLib : OpenPGP Bool (List Char) (List Char) :=
  { toyLib with
    readKey := fun _ =>
      .error { isError := true, message := "internal: secp256k1 point decode failure at offset 17" }
    readPrivateKey := fun _ =>
      .error { isError := true, message := "internal: s2k iteration count out of range" } }

/-! ## Claim theorems -/

/-- Helper: the UTF-8 byte size of a run of `n` ASCII `a` characters is `n`. -/
theorem utf8Len_replicate (n : Nat) :
    String.utf8Len (List.replicate n 'a') = n := by
  induction n with
  | zero => rfl
  | succ k ih =>
    rw [List.replicate_succ, String.utf8Len_cons, ih]
    have : Char.utf8Size 'a' = 1 := by decide
    omega

/-- A message of exactly 1 MiB (1,048,576 ASCII bytes). -/
def oneMiBMessage : String :=
  String.mk (List.replicate MAX_MESSAGE_SIZE 'a')

/-- C4: `validateMessageSize` returns `valid = false` exactly when the
message's byte size exceeds 1 MiB (1,048,576 bytes), and accepts every
message at or under the limit, including one of exactly 1,048,576 bytes. -/
theorem validateMessageSize_boundary :
    (∀ message : String,
      (validateMessageSize message).valid = false ↔ MAX_MESSAGE_SIZE < blobSize message) ∧
    blobSize oneMiBMessage = 1048576 ∧
    (validateMessageSize oneMiBMessage).valid = true := by
  have hsize : blobSize oneMiBMessage = 1048576 := by
    unfold blobSize oneMiBMessage
    rw [String.utf8ByteSize_mk, utf8Len_replicate]
    decide
  refine ⟨fun message => ?_, hsize, ?_⟩
  · unfold validateMessageSize
    by_cases h : blobSize message > MAX_MESSAGE_SIZE
    · simp [h]
    · simp [h]
  · simp [validateMessageSize, hsize, MAX_MESSAGE_SIZE]

/-- C6 counterexample: `formatFingerprint` is not idempotent.  On the
8-character fingerprint `ABCDEFGH` one application yields `ABCD EFGH`,
but a second application regroups across the inserted space and yields
`ABCD  EFG H`. -/
theorem formatFingerprint_not_idempotent :
    formatFingerprint (formatFingerprint "ABCDEFGH") ≠ formatFingerprint "ABCDEFGH" := by
  decide

/-- Helper: on a run of regex-`.` characters the greedy take agrees with
`List.take`. -/
theorem takeDots_all_dots (n : Nat) (l : List Char) (h : ∀ c ∈ l, jsDot c = true) :
    takeDots n l = l.take n := by
  induction n generalizing l with
  | zero => cases l <;> rfl
  | succ k ih =>
    cases l with
    | nil => rfl
    | cons c rest =>
      have hc : jsDot c = true := h c (by simp)
      simp [takeDots, hc, ih rest (fun d hd => h d (by simp [hd]))]

/-- Helper: `blocks4Aux` on the empty list is empty for any fuel. -/
theorem blocks4Aux_nil (n : Nat) : blocks4Aux n [] = [] := by
  cases n <;> rfl

/-- Helper: on a line-terminator-free character list the regex scan cuts
plain blocks of four. -/
theorem matchChunksAux_all_dots (fuel : Nat) (l : List Char)
    (h : ∀ c ∈ l, jsDot c = true) :
    matchChunksAux fuel l = blocks4Aux fuel l := by
  induction fuel generalizing l with
  | zero => rfl
  | succ k ih =>
    cases l with
    | nil => rfl
    | cons c rest =>
      have hc : jsDot c = true := h c (by simp)
      have hrest : ∀ d ∈ rest, jsDot d = true := fun d hd => h d (by simp [hd])
      have htake : takeDots 3 rest = rest.take 3 := takeDots_all_dots 3 rest hrest
      have hdropped : ∀ d ∈ rest.drop ((c :: takeDots 3 rest).length - 1), jsDot d = true := by
        intro d hd
        exact hrest d (List.mem_of_mem_drop hd)
      simp only [matchChunksAux, hc, if_true, blocks4Aux]
      congr 1
      · simp [htake]
      · rw [ih _ hdropped]
        have hlen : (c :: takeDots 3 rest).length - 1 = min 3 rest.length := by
          rw [htake]
          simp
        rw [hlen]
        have hdrop_eq : rest.drop (min 3 rest.length) = rest.drop 3 := by
          rcases Nat.le_total 3 rest.length with h3 | h3
          · rw [Nat.min_eq_left h3]
          · rw [Nat.min_eq_right h3]
            rw [List.drop_of_length_le (le_refl rest.length), List.drop_of_length_le h3]
        rw [hdrop_eq]
        simp

/-- Helper: a singleton intercalation is the string itself. -/
theorem intercalate_singleton (x : String) : String.intercalate " " [x] = x := rfl

/-- C6 (amended): on a plain fingerprint (no line-terminator characters)
`formatFingerprint` groups the characters into blocks of 4 separated by
single spaces, and it is idempotent on fingerprints of at most 4
characters; re-applying it to a longer formatted fingerprint regroups
across the inserted spaces (see `formatFingerprint_not_idempotent`). -/
theorem formatFingerprint_groups_of_four (f : String)
    (hdot : ∀ c ∈ f.data, jsDot c = true) :
    formatFingerprint f = specGroup4 f ∧
    (f.data.length ≤ 4 → formatFingerprint (formatFingerprint f) = formatFingerprint f) := by
  have hchunks : matchChunks f.data = blocks4Aux f.data.length f.data :=
    matchChunksAux_all_dots f.data.length f.data hdot
  have hmain : formatFingerprint f = specGroup4 f := by
    cases hf : f.data with
    | nil =>
      have hf0 : f = "" := by
        cases f with
        | mk data =>
          have hnil : data = [] := hf
          subst hnil
          rfl
      rw [hf0]
      rfl
    | cons c rest =>
      unfold formatFingerprint specGroup4
      rw [hchunks, hf]
      simp [blocks4Aux]
  refine ⟨hmain, fun hlen => ?_⟩
  have hid : formatFingerprint f = f := by
    cases hf : f.data with
    | nil =>
      have hf0 : f = "" := by
        cases f with
        | mk data =>
          have hnil : data = [] := hf
          subst hnil
          rfl
      rw [hf0]
      rfl
    | cons c rest =>
      have hlen4 : (c :: rest).length ≤ 4 := hf ▸ hlen
      have htake : (c :: rest).take 4 = c :: rest := List.take_of_length_le hlen4
      have hdrop : (c :: rest).drop 4 = [] := List.drop_of_length_le hlen4
      unfold formatFingerprint
      rw [hchunks, hf]
      simp only [List.length_cons, blocks4Aux, htake, hdrop, blocks4Aux_nil,
        List.map_cons, List.map_nil, List.isEmpty_cons, if_false, Bool.false_eq_true,
        intercalate_singleton]
      cases f with
      | mk data => simp_all
  rw [hid, hid]

/-- C8: `clearAll` returns each flow to its initial idle state: in
`useDecrypt` and `useEncrypt` the whole state record (keys, passphrase,
message, output, key info, error, loading and passphrase flags,
recipients and self-key fields) equals its initial value after
`clearAll`, for every prior state (the fresh recipient identifier of the
re-created empty recipient is the one `createRecipient()` draws). -/
theorem clearAll_resets (s : UseDecryptState) (t : UseEncryptState) (freshId : String) :
    decryptClearAll s = initialDecryptState ∧
    encryptStep (.clearAll freshId) t = initialEncryptState freshId :=
  ⟨rfl, rfl⟩

/-- Helper: an id-preserving per-recipient update leaves the identifier
list unchanged. -/
theorem map_ids_of_id_fixed (l : List Recipient) (f : Recipient → Recipient)
    (h : ∀ r, (f r).id = r.id) :
    (l.map f).map Recipient.id = l.map Recipient.id := by
  rw [List.map_map]
  exact List.map_congr_left (fun r _ => h r)

/-- Helper: an id-preserving per-recipient update preserves the
recipients-list invariant. -/
theorem recListInv_map (l : List Recipient) (f : Recipient → Recipient)
    (h : ∀ r, (f r).id = r.id) (hinv : RecListInv l) : RecListInv (l.map f) := by
  obtain ⟨h1, h10, hnodup⟩ := hinv
  refine ⟨by simpa using h1, by simpa using h10, ?_⟩
  rw [map_ids_of_id_fixed l f h]
  exact hnodup

/-- Helper: with at least two recipients and distinct identifiers,
filtering one identifier out keeps the list non-empty. -/
theorem one_le_length_filter_ne (a b : Recipient) (t : List Recipient) (rid : String)
    (hnodup : ((a :: b :: t).map Recipient.id).Nodup) :
    1 ≤ ((a :: b :: t).filter (fun r => r.id != rid)).length := by
  by_cases ha : a.id = rid
  · have hab : a.id ≠ b.id := by
      simp only [List.map_cons, List.nodup_cons, List.mem_cons] at hnodup
      exact fun h => hnodup.1 (Or.inl h)
    have hb : b.id ≠ rid := fun h => hab (by rw [ha, h])
    simp [List.filter_cons, ha, hb]
  · by_cases hb : b.id = rid
    · simp [List.filter_cons, ha, hb]
    · simp [List.filter_cons, ha, hb]

/-- Helper: removing one identifier from an invariant-satisfying list of
length at least two preserves the invariant. -/
theorem recListInv_filter_ne (l : List Recipient) (rid : String)
    (h2 : 2 ≤ l.length) (hinv : RecListInv l) :
    RecListInv (l.filter (fun r => r.id != rid)) := by
  obtain ⟨h1, h10, hnodup⟩ := hinv
  refine ⟨?_, le_trans (List.length_filter_le _ l) h10, ?_⟩
  · match l, h2 with
    | a :: b :: t, _ => exact one_le_length_filter_ne a b t rid hnodup
  · exact List.Nodup.sublist (List.Sublist.map Recipient.id (List.filter_sublist l)) hnodup

/-- Helper: appending a freshly identified empty recipient to a list of
at most nine preserves the invariant. -/
theorem recListInv_append_fresh (l : List Recipient) (freshId : String)
    (h9 : l.length ≤ 9) (hfid : freshId ∉ l.map Recipient.id)
    (hinv : RecListInv l) : RecListInv (l ++ [createRecipient freshId]) := by
  obtain ⟨h1, h10, hnodup⟩ := hinv
  refine ⟨by simp only [List.length_append, List.length_singleton]; omega,
    by simp only [List.length_append, List.length_singleton]; omega, ?_⟩
  rw [List.map_append]
  simp only [List.map_cons, List.map_nil, createRecipient, List.nodup_append,
    List.disjoint_singleton]
  exact ⟨hnodup, by simp, hfid⟩

/-- C9: the recipients list of `useEncrypt` always has between 1 and 10
entries: the initial state and `clearAll` produce exactly one recipient,
`addRecipient` is a no-op at 10 recipients, `removeRecipient` is a no-op
at one recipient, every other state update leaves the list length
unchanged, and the 1–10 invariant (together with distinctness of the
generated recipient identifiers) is preserved by every state update. -/
theorem recipients_bounded (freshId rid key out msg : String) (err : Option String)
    (info : KeyInfo) (enabled : Bool) (s : UseEncryptState) (a : EncryptAction) :
    (initialEncryptState freshId).recipients.length = 1 ∧
    (encryptStep (.clearAll freshId) s).recipients.length = 1 ∧
    (s.recipients.length = 10 → encryptStep (.addRecipient freshId) s = s) ∧
    (s.recipients.length = 1 → encryptStep (.removeRecipient rid) s = s) ∧
    (1 ≤ s.recipients.length →
      (encryptStep (.setPublicKey freshId key) s).recipients.length = s.recipients.length) ∧
    (encryptStep (.updateRecipient rid key) s).recipients.length = s.recipients.length ∧
    (encryptStep (.validateRecipientFormatFail rid err) s).recipients.length = s.recipients.length ∧
    (encryptStep (.validateRecipientParseFail rid) s).recipients.length = s.recipients.length ∧
    (encryptStep (.validateRecipientOk rid info) s).recipients.length = s.recipients.length ∧
    (encryptStep (.setEncryptToSelf enabled) s).recipients.length = s.recipients.length ∧
    (encryptStep (.setSelfKey key) s).recipients.length = s.recipients.length ∧
    (encryptStep .validateSelfKeyMissing s).recipients.length = s.recipients.length ∧
    (encryptStep (.validateSelfKeyFormatFail err) s).recipients.length = s.recipients.length ∧
    (encryptStep .validateSelfKeyParseFail s).recipients.length = s.recipients.length ∧
    (encryptStep (.validateSelfKeyOk info) s).recipients.length = s.recipients.length ∧
    (encryptStep (.setMessage msg) s).recipients.length = s.recipients.length ∧
    (encryptStep .encryptStart s).recipients.length = s.recipients.length ∧
    (encryptStep .encryptNoRecipients s).recipients.length = s.recipients.length ∧
    (encryptStep (.encryptInvalidKey rid err) s).recipients.length = s.recipients.length ∧
    (encryptStep .encryptSelfKeyMissing s).recipients.length = s.recipients.length ∧
    (encryptStep (.encryptSelfKeyFormatFail err) s).recipients.length = s.recipients.length ∧
    (encryptStep (.encryptMessageInvalid err) s).recipients.length = s.recipients.length ∧
    (encryptStep (.encryptSuccess out) s).recipients.length = s.recipients.length ∧
    (encryptStep (.encryptFailure msg) s).recipients.length = s.recipients.length ∧
    (RecipientsInv s → FreshFor a s → RecipientsInv (encryptStep a s)) := by
  refine ⟨rfl, rfl, ?_, ?_, ?_, by simp [encryptStep], by simp [encryptStep],
    by simp [encryptStep], by simp [encryptStep], by simp [encryptStep],
    by simp [encryptStep], by simp [encryptStep], by simp [encryptStep],
    by simp [encryptStep], by simp [encryptStep], by simp [encryptStep],
    by simp [encryptStep], by simp [encryptStep], by simp [encryptStep],
    by simp [encryptStep], by simp [encryptStep], by simp [encryptStep],
    by simp [encryptStep], by simp [encryptStep], ?_⟩
  · intro h10
    simp [encryptStep, h10]
  · intro h1
    simp [encryptStep, h1]
  · intro h1
    cases hrec : s.recipients with
    | nil => rw [hrec] at h1; simp at h1
    | cons r rest => simp [encryptStep, hrec]
  · intro hinv hfresh
    cases a with
    | setPublicKey fid k =>
      obtain ⟨h1, h10, hnodup⟩ := hinv
      cases hrec : s.recipients with
      | nil => rw [hrec] at h1; simp at h1
      | cons r rest =>
        have hstep : encryptStep (.setPublicKey fid k) s =
            { s with recipients := { r with key := k, keyInfo := none, error := none } :: rest
                     error := none } := by
          simp [encryptStep, hrec]
        rw [hstep]
        rw [hrec] at h10 hnodup
        exact ⟨by simp, by simpa using h10, by simpa using hnodup⟩
    | addRecipient fid =>
      by_cases hfull : 10 ≤ s.recipients.length
      · simpa [encryptStep, hfull] using hinv
      · have hstep : encryptStep (.addRecipient fid) s =
            { s with recipients := s.recipients ++ [createRecipient fid], error := none } := by
          simp [encryptStep, hfull]
        rw [hstep]
        exact recListInv_append_fresh s.recipients fid (by omega) hfresh hinv
    | removeRecipient rid' =>
      by_cases hone : s.recipients.length ≤ 1
      · simpa [encryptStep, hone] using hinv
      · have hstep : encryptStep (.removeRecipient rid') s =
            { s with recipients := s.recipients.filter (fun r => r.id != rid'), error := none } := by
          simp [encryptStep, hone]
        rw [hstep]
        exact recListInv_filter_ne s.recipients rid' (by omega) hinv
    | updateRecipient rid' k =>
      exact recListInv_map s.recipients _
        (fun r => by by_cases h : r.id == rid' <;> simp [h]) hinv
    | validateRecipientFormatFail rid' e =>
      exact recListInv_map s.recipients _
        (fun r => by by_cases h : r.id == rid' <;> simp [h]) hinv
    | validateRecipientParseFail rid' =>
      exact recListInv_map s.recipients _
        (fun r => by by_cases h : r.id == rid' <;> simp [h]) hinv
    | validateRecipientOk rid' i =>
      exact recListInv_map s.recipients _
        (fun r => by by_cases h : r.id == rid' <;> simp [h]) hinv
    | encryptInvalidKey rid' e =>
      exact recListInv_map s.recipients _
        (fun r => by by_cases h : r.id == rid' <;> simp [h]) hinv
    | setEncryptToSelf b => exact hinv
    | setSelfKey k => exact hinv
    | validateSelfKeyMissing => exact hinv
    | validateSelfKeyFormatFail e => exact hinv
    | validateSelfKeyParseFail => exact hinv
    | validateSelfKeyOk i => exact hinv
    | setMessage m => exact hinv
    | encryptStart => exact hinv
    | encryptNoRecipients => exact hinv
    | encryptSelfKeyMissing => exact hinv
    | encryptSelfKeyFormatFail e => exact hinv
    | encryptMessageInvalid e => exact hinv
    | encryptSuccess o => exact hinv
    | encryptFailure e => exact hinv
    | clearAll fid =>
      exact ⟨by simp [encryptStep], by simp [encryptStep], by simp [encryptStep]⟩

/-- C9 witness: the invariant holds of the freshly mounted state and is
preserved by adding a distinct recipient. -/
theorem recipients_bounded_witness :
    RecipientsInv (initialEncryptState "r1") ∧
    FreshFor (.addRecipient "r2") (initialEncryptState "r1") ∧
    RecipientsInv (encryptStep (.addRecipient "r2") (initialEncryptState "r1")) :=
  ⟨by decide, by decide,
    (recipients_bounded "r1" "x" "" "" "" none
        { fingerprint := "", userIds := [], algorithm := "", created := 0,
          expirationDate := none, isExpired := false } false
        (initialEncryptState "r1") (.addRecipient "r2")).2.2.2.2.2.2.2.2.2.2.2.2.2.2.2.2.2.2.2.2.2.2.2.2
      (by decide) (by decide)⟩

/-- C1: for every plaintext and matching key pair — i.e. whenever the
library fulfils its documented round-trip contract for these armored
strings (the hypotheses below, including unlocking a protected key with
its passphrase) — `encryptMessage` succeeds with the ciphertext and
`decryptMessage` on that ciphertext succeeds with the original
plaintext. -/
theorem encrypt_decrypt_roundtrip {K M C : Type} (L : OpenPGP K M C)
    (plaintext pub priv ct : String) (pass : Option String)
    (k sk usk : K) (m m2 : M)
    (hk : L.readKey pub = .ok k)
    (hcm : L.createMessage plaintext = .ok m)
    (he : L.encrypt m [k] = .ok ct)
    (hsk : L.readPrivateKey priv = .ok sk)
    (hunlock : if L.isDecrypted sk then usk = sk
      else jsFalsyOpt pass = false ∧ L.decryptKey sk (pass.getD "") = .ok usk)
    (hrm : L.readMessage ct = .ok m2)
    (hd : L.decrypt m2 usk = .ok plaintext) :
    encryptMessage L plaintext (Sum.inl pub) = { success := true, data := some ct } ∧
    decryptMessage L ct priv pass = { success := true, data := some plaintext } := by
  constructor
  · simp [encryptMessage, toKeyArray, encryptCore, readAllKeys, hk, hcm, he, Bind.bind,
      Except.bind]
  · unfold decryptMessage
    rw [hsk]
    by_cases hdec : L.isDecrypted sk
    · rw [if_pos hdec] at hunlock
      subst hunlock
      simp [hdec, decryptCore, hrm, hd, Bind.bind, Except.bind]
    · rw [if_neg hdec] at hunlock
      obtain ⟨hfalsy, hdk⟩ := hunlock
      simp [hdec, hfalsy, hdk, decryptCore, hrm, hd, Bind.bind, Except.bind]

/-- C1 witness: in the concrete library model, encrypting `hi` for the
`PUB` key and decrypting with the matching `PRIV` key round-trips. -/
theorem encrypt_decrypt_roundtrip_witness :
    toyLib.readKey "PUB" = .ok true ∧
    encryptMessage toyLib "hi" (Sum.inl "PUB") = { success := true, data := some "Chi" } ∧
    decryptMessage toyLib "Chi" "PRIV" none = { success := true, data := some "hi" } :=
  ⟨by decide,
    (encrypt_decrypt_roundtrip toyLib "hi" "PUB" "PRIV" "Chi" none true true true
      ['h', 'i'] ['h', 'i'] (by decide) (by decide) (by decide) (by decide) (by decide)
      (by decide) (by decide)).1,
    (encrypt_decrypt_roundtrip toyLib "hi" "PUB" "PRIV" "Chi" none true true true
      ['h', 'i'] ['h', 'i'] (by decide) (by decide) (by decide) (by decide) (by decide)
      (by decide) (by decide)).2⟩

/-- C2: for every message and matching key pair, verifying the clear-signed
output of `signMessage` with the corresponding public key reports
`valid = true`, and a tampered payload — one whose signature entry the
library rejects — yields `valid = false` (with `success = true`). -/
theorem sign_verify_roundtrip {K M C : Type} (L : OpenPGP K M C)
    (msg priv pub s s' : String) (pass : Option String)
    (sk usk k : K) (cm : C) (c c' : C) (vr vr' : VerificationResult)
    (entry entry' : SignatureEntry) (rest rest' : List SignatureEntry)
    (d : Option Int) (ex : Thrown)
    (hsk : L.readPrivateKey priv = .ok sk)
    (hunlock : if L.isDecrypted sk then usk = sk
      else jsFalsyOpt pass = false ∧ L.decryptKey sk (pass.getD "") = .ok usk)
    (hcc : L.createCleartextMessage msg = .ok cm)
    (hsign : L.signCleartext cm usk = .ok s)
    (hk : L.readKey pub = .ok k)
    (hrc : L.readCleartextMessage s = .ok c)
    (hv : L.verify (Sum.inr c) k = .ok vr)
    (hsigs : vr.signatures = entry :: rest)
    (hver : entry.verified = .ok ())
    (hcd : entry.createdDate = .ok d)
    (hrc' : L.readCleartextMessage s' = .ok c')
    (hv' : L.verify (Sum.inr c') k = .ok vr')
    (hsigs' : vr'.signatures = entry' :: rest')
    (hver' : entry'.verified = .error ex) :
    signMessage L msg priv pass false = { success := true, data := some s } ∧
    (verifySignature L s pub).valid = some true ∧
    (verifySignature L s' pub).success = true ∧
    (verifySignature L s' pub).valid = some false := by
  refine ⟨?_, ?_, ?_, ?_⟩
  · unfold signMessage
    rw [hsk]
    by_cases hdec : L.isDecrypted sk
    · rw [if_pos hdec] at hunlock
      subst hunlock
      simp [hdec, signWith, hcc, hsign, Bind.bind, Except.bind]
    · rw [if_neg hdec] at hunlock
      obtain ⟨hfalsy, hdk⟩ := hunlock
      simp [hdec, hfalsy, hdk, signWith, hcc, hsign, Bind.bind, Except.bind]
  · simp [verifySignature, hk, hrc, hv, hsigs, hver, hcd, Bind.bind, Except.bind]
  · cases hcd' : entry'.createdDate <;>
      simp [verifySignature, hk, hrc', hv', hsigs', hver', hcd', Bind.bind, Except.bind]
  · cases hcd' : entry'.createdDate <;>
      simp [verifySignature, hk, hrc', hv', hsigs', hver', hcd', Bind.bind, Except.bind]

/-- C2 witness: in the concrete library model, `hello` clear-signed with
`PRIV` verifies as valid under `PUB`, while the tampered payload
`Xhello` verifies as invalid. -/
theorem sign_verify_roundtrip_witness :
    toyLib.readPrivateKey "PRIV" = .ok true ∧
    signMessage toyLib "hello" "PRIV" none false = { success := true, data := some "Shello" } ∧
    (verifySignature toyLib "Shello" "PUB").valid = some true ∧
    (verifySignature toyLib "Xhello" "PUB").valid = some false :=
  have happ := sign_verify_roundtrip toyLib "hello" "PRIV" "PUB" "Shello" "Xhello" none
    true true true "hello".data "Shello".data "Xhello".data
    { dataStr := some "Shello", signatures := [{ verified := .ok (), createdDate := .ok none }] }
    { dataStr := some "Xhello"
      signatures := [{ verified := .error { isError := true, message := "Signature mismatch" }
                       createdDate := .ok none }] }
    { verified := .ok (), createdDate := .ok none }
    { verified := .error { isError := true, message := "Signature mismatch" }
      createdDate := .ok none }
    [] [] none { isError := true, message := "Signature mismatch" }
    (by decide) (by decide) (by decide) (by decide) (by decide) (by decide) (by decide)
    (by decide) (by decide) (by decide) (by decide) (by decide) (by decide) (by decide)
  ⟨by decide, happ.1, happ.2.1, happ.2.2.2⟩

/-- C3: for a passphrase-protected private key, `decryptMessage` and
`signMessage` called without a passphrase fail with the fixed
passphrase-request message before any cryptographic call (the conclusion
holds for every behaviour of the library's message-level operations),
and called with a wrong passphrase they fail with the fixed retryable
incorrect-passphrase message, which carries no attempt count. -/
theorem passphrase_gate {K M C : Type} (L : OpenPGP K M C)
    (encrypted pk msg : String) (pass : Option String) (det : Bool)
    (sk : K) (e : Thrown)
    (hsk : L.readPrivateKey pk = .ok sk)
    (hlocked : L.isDecrypted sk = false) :
    (jsFalsyOpt pass = true →
      decryptMessage L encrypted pk pass =
        { success := false, error := some passphraseNeededError } ∧
      signMessage L msg pk pass det =
        { success := false, error := some passphraseNeededError }) ∧
    (jsFalsyOpt pass = false → L.decryptKey sk (pass.getD "") = .error e →
      decryptMessage L encrypted pk pass =
        { success := false, error := some incorrectPassphraseError } ∧
      signMessage L msg pk pass det =
        { success := false, error := some incorrectPassphraseError }) := by
  constructor
  · intro hfalsy
    constructor
    · simp [decryptMessage, hsk, hlocked, hfalsy]
    · simp [signMessage, hsk, hlocked, hfalsy]
  · intro hfalsy hwrong
    constructor
    · simp [decryptMessage, hsk, hlocked, hfalsy, hwrong]
    · simp [signMessage, hsk, hlocked, hfalsy, hwrong]

/-- C3 witness: the protected key `EPRIV` of the concrete model demands a
passphrase when none is given and reports the fixed incorrect-passphrase
message for a wrong one. -/
theorem passphrase_gate_witness :
    toyLib.readPrivateKey "EPRIV" = .ok false ∧
    decryptMessage toyLib "Cmsg" "EPRIV" none =
      { success := false, error := some passphraseNeededError } ∧
    decryptMessage toyLib "Cmsg" "EPRIV" (some "wrong") =
      { success := false, error := some incorrectPassphraseError } ∧
    signMessage toyLib "msg" "EPRIV" (some "wrong") false =
      { success := false, error := some incorrectPassphraseError } :=
  have h1 := passphrase_gate toyLib "Cmsg" "EPRIV" "msg" none false false
    { isError := true, message := "Incorrect key passphrase" } (by decide) (by decide)
  have h2 := passphrase_gate toyLib "Cmsg" "EPRIV" "msg" (some "wrong") false false
    { isError := true, message := "Incorrect key passphrase" } (by decide) (by decide)
  ⟨by decide, (h1.1 (by decide)).1, (h2.2 (by decide) (by decide)).1,
    (h2.2 (by decide) (by decide)).2⟩

/-- Helper: the `catch` block of `decryptMessage` yields the fixed
wrong-key message whatever was thrown. -/
theorem decryptCatch_eq (e : Thrown) :
    decryptCatch e = { success := false, error := some wrongKeyError } := by
  unfold decryptCatch
  by_cases h : jsIncludes (e.messageOr "Decryption failed") "Session key decryption failed" <;>
    simp [h]

/-- Helper: every run of `decryptMessage` ends in one of exactly four
result shapes. -/
theorem decrypt_result_cases {K M C : Type} (L : OpenPGP K M C)
    (em pk : String) (pass : Option String) :
    decryptMessage L em pk pass = { success := false, error := some wrongKeyError } ∨
    decryptMessage L em pk pass = { success := false, error := some passphraseNeededError } ∨
    decryptMessage L em pk pass = { success := false, error := some incorrectPassphraseError } ∨
    ∃ d, decryptMessage L em pk pass = { success := true, data := some d } := by
  unfold decryptMessage
  cases hpk : L.readPrivateKey pk with
  | error e => left; simp [decryptCatch_eq]
  | ok sk =>
    cases hdec : L.isDecrypted sk with
    | true =>
      cases hcore : decryptCore L em sk with
      | ok d => right; right; right; exact ⟨d, by simp [hdec, hcore]⟩
      | error e => left; simp [hdec, hcore, decryptCatch_eq]
    | false =>
      cases hfal : jsFalsyOpt pass with
      | true => right; left; simp [hdec, hfal]
      | false =>
        cases hdk : L.decryptKey sk (pass.getD "") with
        | error e => right; right; left; simp [hdec, hfal, hdk]
        | ok sk2 =>
          cases hcore : decryptCore L em sk2 with
          | ok d => right; right; right; exact ⟨d, by simp [hdec, hfal, hdk, hcore]⟩
          | error e => left; simp [hdec, hfal, hdk, hcore, decryptCatch_eq]

/-- C10: every failure of `decryptMessage` that is not the missing or
incorrect passphrase case carries the single fixed wrong-key error
string, whatever exception the library threw — so any two such failing
runs produce identical error output. -/
theorem decrypt_error_fixed {K M C : Type} (L : OpenPGP K M C)
    (em pk : String) (pass : Option String)
    (hfail : (decryptMessage L em pk pass).success = false)
    (h1 : (decryptMessage L em pk pass).error ≠ some passphraseNeededError)
    (h2 : (decryptMessage L em pk pass).error ≠ some incorrectPassphraseError) :
    (decryptMessage L em pk pass).error = some wrongKeyError := by
  rcases decrypt_result_cases L em pk pass with h | h | h | ⟨d, h⟩
  · rw [h]
  · rw [h] at h1; simp at h1
  · rw [h] at h2; simp at h2
  · rw [h] at hfail; simp at hfail

/-- C10 witness: a run in which the library rejects the private key is a
non-passphrase failure and indeed reports the fixed wrong-key string. -/
theorem decrypt_error_fixed_witness :
    (decryptMessage leakLib "msg" "key" none).success = false ∧
    (decryptMessage leakLib "msg" "key" none).error = some wrongKeyError :=
  ⟨by decide,
    decrypt_error_fixed leakLib "msg" "key" none (by decide) (by decide) (by decide)⟩

/-- C5 counterexample: the error returned by `encryptMessage` is not
drawn from a fixed set — when the library throws an `Error`, the
wrapper's error string is the internal exception message itself. -/
theorem error_detail_leaks :
    (encryptMessage leakLib "hi" (Sum.inl "KEY")).error =
      some "internal: secp256k1 point decode failure at offset 17" := by
  decide

/-- C5 (amended): `decryptMessage` normalizes every failure into one of
three fixed user-facing messages, but `encryptMessage`, `signMessage`
and `verifySignature` surface the thrown `Error`'s own message, falling
back to a fixed string only when the thrown value is not an `Error`. -/
theorem error_normalization_amended {K M C : Type} (L : OpenPGP K M C)
    (em pk msg sm pub pt : String) (pass : Option String) (det : Bool)
    (keys : String ⊕ List String) (e : Thrown) :
    (∀ err, (decryptMessage L em pk pass).error = some err →
      err = wrongKeyError ∨ err = passphraseNeededError ∨ err = incorrectPassphraseError) ∧
    (toKeyArray keys ≠ [] → encryptCore L pt (toKeyArray keys) = .error e →
      encryptMessage L pt keys =
        { success := false, error := some (e.messageOr "Encryption failed") }) ∧
    (L.readPrivateKey pk = .error e →
      signMessage L msg pk pass det =
        { success := false, error := some (e.messageOr "Signing failed") }) ∧
    (L.readKey pub = .error e →
      verifySignature L sm pub =
        { success := false, error := some (e.messageOr "Could not verify the signature.") }) := by
  refine ⟨?_, ?_, ?_, ?_⟩
  · intro err herr
    rcases decrypt_result_cases L em pk pass with h | h | h | ⟨d, h⟩ <;>
      rw [h] at herr <;> simp at herr <;> simp [herr]
  · intro hne hcore
    have hlen : ((toKeyArray keys).length == 0) = false := by
      simp [List.length_eq_zero, hne]
    simp [encryptMessage, hlen, hcore]
  · intro h
    simp [signMessage, h]
  · intro h
    simp [verifySignature, h, Bind.bind, Except.bind]

/-- C5 amended witness: a concrete throwing library makes the leak
visible in `encryptMessage`. -/
theorem error_normalization_amended_witness :
    encryptCore leakLib "hi" (toKeyArray (Sum.inl "KEY")) =
      .error { isError := true, message := "internal: secp256k1 point decode failure at offset 17" } ∧
    encryptMessage leakLib "hi" (Sum.inl "KEY") =
      { success := false, error := some "internal: secp256k1 point decode failure at offset 17" } :=
  ⟨by decide, by
    have h := (error_normalization_amended leakLib "a" "b" "m" "s" "p" "hi" none false
      (Sum.inl "KEY")
      { isError := true, message := "internal: secp256k1 point decode failure at offset 17" }).2.1
      (by decide) (by decide)
    simpa [Thrown.messageOr] using h⟩

/-- Helper: every run of `encryptMessage` ends in a success-with-data or
failure-with-error record. -/
theorem encrypt_result_cases {K M C : Type} (L : OpenPGP K M C)
    (pt : String) (keys : String ⊕ List String) :
    (∃ d, encryptMessage L pt keys = { success := true, data := some d }) ∨
    (∃ err, encryptMessage L pt keys = { success := false, error := some err }) := by
  unfold encryptMessage
  cases h0 : ((toKeyArray keys).length == 0) with
  | true => right; exact ⟨"At least one public key is required", by simp [h0]⟩
  | false =>
    cases hcore : encryptCore L pt (toKeyArray keys) with
    | ok d => left; exact ⟨d, by simp [h0, hcore]⟩
    | error e => right; exact ⟨e.messageOr "Encryption failed", by simp [h0, hcore]⟩

/-- Helper: the sign tail always yields a success-with-data or
failure-with-error record. -/
theorem signWith_cases {K M C : Type} (L : OpenPGP K M C)
    (msg : String) (det : Bool) (k : K) :
    (∃ d, signWith L msg det k = { success := true, data := some d }) ∨
    (∃ err, signWith L msg det k = { success := false, error := some err }) := by
  unfold signWith
  cases det with
  | true =>
    cases h : (do
        let messageObj ← L.createMessage msg
        L.signDetached messageObj k : Except Thrown String) with
    | ok d => left; exact ⟨d, by simp [h]⟩
    | error e => right; exact ⟨e.messageOr "Signing failed", by simp [h]⟩
  | false =>
    cases h : (do
        let cleartextMessage ← L.createCleartextMessage msg
        L.signCleartext cleartextMessage k : Except Thrown String) with
    | ok d => left; exact ⟨d, by simp [h]⟩
    | error e => right; exact ⟨e.messageOr "Signing failed", by simp [h]⟩

/-- Helper: every run of `signMessage` ends in a success-with-data or
failure-with-error record. -/
theorem sign_result_cases {K M C : Type} (L : OpenPGP K M C)
    (msg pk : String) (pass : Option String) (det : Bool) :
    (∃ d, signMessage L msg pk pass det = { success := true, data := some d }) ∨
    (∃ err, signMessage L msg pk pass det = { success := false, error := some err }) := by
  unfold signMessage
  cases hpk : L.readPrivateKey pk with
  | error e => right; exact ⟨e.messageOr "Signing failed", by simp [hpk]⟩
  | ok sk =>
    cases hdec : L.isDecrypted sk with
    | true => simpa [hpk, hdec] using signWith_cases L msg det sk
    | false =>
      cases hfal : jsFalsyOpt pass with
      | true => right; exact ⟨passphraseNeededError, by simp [hpk, hdec, hfal]⟩
      | false =>
        cases hdk : L.decryptKey sk (pass.getD "") with
        | error e => right; exact ⟨incorrectPassphraseError, by simp [hpk, hdec, hfal, hdk]⟩
        | ok sk2 => simpa [hpk, hdec, hfal, hdk] using signWith_cases L msg det sk2

/-- Helper: every run of `verifySignature` ends in a valid verdict
(success), a tampered verdict (success with the fixed message), or a
failure-with-error record. -/
theorem verify_result_cases {K M C : Type} (L : OpenPGP K M C)
    (sm pub : String) :
    (∃ sb sa mg, verifySignature L sm pub =
      { success := true, valid := some true, signedBy := some sb,
        signedAt := sa, message := mg }) ∨
    verifySignature L sm pub =
      { success := true, valid := some false, error := some tamperedError } ∨
    (∃ err, verifySignature L sm pub = { success := false, error := some err }) := by
  unfold verifySignature
  cases hk : L.readKey pub with
  | error e =>
    right; right
    exact ⟨e.messageOr "Could not verify the signature.", by simp [hk, Bind.bind, Except.bind]⟩
  | ok k =>
    cases hmsgE : (match L.readCleartextMessage sm with
        | .ok cleartext => Except.ok (Sum.inr cleartext)
        | .error _ => (L.readMessage sm).map Sum.inl : Except Thrown (M ⊕ C)) with
    | error e =>
      right; right
      exact ⟨e.messageOr "Could not verify the signature.",
        by simp [hk, hmsgE, Bind.bind, Except.bind]⟩
    | ok v =>
      cases hv : L.verify v k with
      | error e =>
        right; right
        exact ⟨e.messageOr "Could not verify the signature.",
          by simp [hk, hmsgE, hv, Bind.bind, Except.bind]⟩
      | ok vr =>
        cases hsigs : vr.signatures with
        | nil =>
          right; right
          exact ⟨destructureThrown.messageOr "Could not verify the signature.",
            by simp [hk, hmsgE, hv, hsigs, Bind.bind, Except.bind]⟩
        | cons entry rest =>
          cases hver : entry.verified with
          | ok u =>
            cases u
            cases hcd : entry.createdDate with
            | ok d =>
              left
              refine ⟨jsStrOr (L.getUserIDs k).head? "Unknown", d, vr.dataStr, ?_⟩
              simp [hk, hmsgE, hv, hsigs, hver, hcd, Bind.bind, Except.bind]
            | error e2 =>
              right; left
              simp [hk, hmsgE, hv, hsigs, hver, hcd, Bind.bind, Except.bind]
          | error e2 =>
            right; left
            cases hcd : entry.createdDate <;>
              simp [hk, hmsgE, hv, hsigs, hver, hcd, Bind.bind, Except.bind]

/-- C7: no wrapper propagates an exception: for every input and every
library behaviour (including throwing behaviours), `parsePublicKey`,
`parsePrivateKey` and `inspectKey` absorb a throwing read into `none`,
and `encryptMessage`, `decryptMessage`, `signMessage` and
`verifySignature` always return a structured success/error record. -/
theorem no_exception_escape {K M C : Type} (L : OpenPGP K M C)
    (now : Int) (akey pkey ikey pt em pk msg sm pub : String) (pass : Option String)
    (det : Bool) (keys : String ⊕ List String) (e : Thrown) :
    (L.readKey akey = .error e → parsePublicKey L now akey = none) ∧
    (L.readPrivateKey pkey = .error e → parsePrivateKey L now pkey = none) ∧
    ((if jsIncludes ikey "PRIVATE KEY BLOCK"
        then L.readPrivateKey ikey else L.readKey ikey) = .error e →
      inspectKey L now ikey = none) ∧
    ((encryptMessage L pt keys).success = true →
      (encryptMessage L pt keys).data.isSome ∧ (encryptMessage L pt keys).error = none) ∧
    ((encryptMessage L pt keys).success = false →
      (encryptMessage L pt keys).error.isSome ∧ (encryptMessage L pt keys).data = none) ∧
    ((decryptMessage L em pk pass).success = true →
      (decryptMessage L em pk pass).data.isSome ∧ (decryptMessage L em pk pass).error = none) ∧
    ((decryptMessage L em pk pass).success = false →
      (decryptMessage L em pk pass).error.isSome ∧ (decryptMessage L em pk pass).data = none) ∧
    ((signMessage L msg pk pass det).success = true →
      (signMessage L msg pk pass det).data.isSome ∧
        (signMessage L msg pk pass det).error = none) ∧
    ((signMessage L msg pk pass det).success = false →
      (signMessage L msg pk pass det).error.isSome ∧
        (signMessage L msg pk pass det).data = none) ∧
    ((verifySignature L sm pub).success = false →
      (verifySignature L sm pub).error.isSome ∧ (verifySignature L sm pub).valid = none) ∧
    ((verifySignature L sm pub).success = true → (verifySignature L sm pub).valid.isSome) := by
  refine ⟨?_, ?_, ?_, ?_, ?_, ?_, ?_, ?_, ?_, ?_, ?_⟩
  · intro h
    simp [parsePublicKey, h]
  · intro h
    simp [parsePrivateKey, h]
  · intro h
    unfold inspectKey
    by_cases hp : jsIncludes ikey "PRIVATE KEY BLOCK" = true
    · rw [if_pos hp] at h
      simp [hp, h, Bind.bind, Except.bind]
    · rw [if_neg hp] at h
      simp [hp, h, Bind.bind, Except.bind]
  · rcases encrypt_result_cases L pt keys with ⟨d, h⟩ | ⟨err, h⟩ <;> rw [h] <;> simp
  · rcases encrypt_result_cases L pt keys with ⟨d, h⟩ | ⟨err, h⟩ <;> rw [h] <;> simp
  · rcases decrypt_result_cases L em pk pass with h | h | h | ⟨d, h⟩ <;> rw [h] <;> simp
  · rcases decrypt_result_cases L em pk pass with h | h | h | ⟨d, h⟩ <;> rw [h] <;> simp
  · rcases sign_result_cases L msg pk pass det with ⟨d, h⟩ | ⟨err, h⟩ <;> rw [h] <;> simp
  · rcases sign_result_cases L msg pk pass det with ⟨d, h⟩ | ⟨err, h⟩ <;> rw [h] <;> simp
  · rcases verify_result_cases L sm pub with ⟨sb, sa, mg, h⟩ | h | ⟨err, h⟩ <;>
      rw [h] <;> simp
  · rcases verify_result_cases L sm pub with ⟨sb, sa, mg, h⟩ | h | ⟨err, h⟩ <;>
      rw [h] <;> simp

/-- C7 witness: with a library whose reads throw, the parse wrapper
returns `null` and the decrypt wrapper returns a structured failure. -/
theorem no_exception_escape_witness :
    leakLib.readKey "x" =
      .error { isError := true, message := "internal: secp256k1 point decode failure at offset 17" } ∧
    parsePublicKey leakLib 0 "x" = none ∧
    (decryptMessage leakLib "m" "k" none).success = false ∧
    (decryptMessage leakLib "m" "k" none).error.isSome :=
  have h := no_exception_escape leakLib 0 "x" "x" "x" "p" "m" "k" "m" "s" "p" none false
    (Sum.inl "K")
    { isError := true, message := "internal: secp256k1 point decode failure at offset 17" }
  ⟨by decide, h.1 (by decide), by decide, (h.2.2.2.2.2.2.1 (by decide)).1⟩

/-- C6 amended witness: a 20-character hex fingerprint is grouped into
blocks of four, and a 4-character one is a fixed point. -/
theorem formatFingerprint_groups_of_four_witness :
    (∀ c ∈ "0123456789ABCDEF0123".data, jsDot c = true) ∧
    formatFingerprint "0123456789ABCDEF0123" = specGroup4 "0123456789ABCDEF0123" ∧
    ("AB12".data.length ≤ 4 →
      formatFingerprint (formatFingerprint "AB12") = formatFingerprint "AB12") :=
  ⟨by decide,
    (formatFingerprint_groups_of_four "0123456789ABCDEF0123" (by decide)).1,
    (formatFingerprint_groups_of_four "AB12" (by decide)).2⟩
